import Mathlib

/-!
Verification development for the XRT xclbin decode-and-derive pipeline
(`src/xma/src/xmaapi/xmaxclbin.cpp`), the run-summary hex encoder
(`src/runtime_src/xdp/profile/core/run_summary.cpp`) and the command-buffer
cache (`src/runtime_src/core/common/bo_cache.h`).

The C sources are shallowly embedded: structs become Lean structures, the
fixed-capacity output arrays of `XmaXclbinInfo` become lists written through
an indexed-write helper (`listSet`), in-place mutation becomes explicit
state passing, and machine integers become `Nat` with explicit wrap-around
where overflow matters.
-/

namespace XmaXclbin

/-- Modelled from the spec: return code `XMA_SUCCESS` of `app/xmaerror.h`,
which is not under `src/`; the spec only requires success and error to be
distinct result values. -/
def XMA_SUCCESS : Int := 0

/-- Modelled from the spec: return code `XMA_ERROR` of `app/xmaerror.h`,
which is not under `src/`. -/
def XMA_ERROR : Int := -1

/-- Modelled from the spec: capacity constant `MAX_KERNEL_CONFIGS` of
`lib/xmaxclbin.h`, which is not under `src/`; spec section 6 gives the
maximum kernel count as 128. The claims settled here only need it positive. -/
def MAX_KERNEL_CONFIGS : Nat := 128

/-- Modelled from the spec: capacity constant `MAX_DDR_MAP` of
`lib/xmaxclbin.h`, which is not under `src/`; both the spec and the source's
own log message ("XMA supports max of only 64 mem banks") and the comment at
`xma_xclbin_map2ddr` ("64 bits based on MAX_DDR_MAP = 64") fix it at 64. -/
def MAX_DDR_MAP : Nat := 64

/-- Modelled from the spec: the `IP_KERNEL` type tag of `xclbin.h`, which is
not under `src/`; only its distinctness from other tag values matters. -/
def IP_KERNEL : Nat := 1

/-- One entry of the `IP_LAYOUT` section payload (`ip_data` in `xclbin.h`):
a type tag, a 64-byte name field (modelled as the whole field value) and a
base address.  The numeric fields are machine integers in C; only their
value range is modelled. -/
structure IpData where
  m_type : Nat
  m_name : String
  m_base_address : Nat
deriving DecidableEq, Repr

/-- The `IP_LAYOUT` section payload: a count followed by the entries.  The
count is a separate field of the binary payload and is not checked against
the number of records actually present, exactly as in the source. -/
structure IpLayout where
  m_count : Nat
  m_ip_data : List IpData
deriving DecidableEq, Repr

/-- One entry of the `MEM_TOPOLOGY` section payload (`mem_data`). -/
structure MemData where
  m_type : Nat
  m_used : Nat
  m_size : Nat
  m_base_address : Nat
  m_tag : String
deriving DecidableEq, Repr

/-- The `MEM_TOPOLOGY` section payload. -/
structure MemTopology where
  m_count : Nat
  m_mem_data : List MemData
deriving DecidableEq, Repr

/-- One entry of the `CONNECTIVITY` section payload (`connection`).  The C
fields are 32-bit integers; only the non-negative values, the meaningful
range, are modelled. -/
structure Connection where
  arg_index : Nat
  m_ip_layout_index : Nat
  mem_data_index : Nat
deriving DecidableEq, Repr

/-- The `CONNECTIVITY` section payload. -/
structure Connectivity where
  m_count : Nat
  m_connection : List Connection
deriving DecidableEq, Repr

/-- The container (`axlf`) as the decoders see it: the 128-bit identity
value of the top-level header and, for each recognized section type, the
first section of that type in the section-header table when present
(`xclbin::get_axlf_section` returns the first match or null). -/
structure Axlf where
  uuid : Nat
  ip_layout_section : Option IpLayout
  mem_topology_section : Option MemTopology
  connectivity_section : Option Connectivity
  system_metadata_section : Option (List Nat)

/-- Output record `XmaIpLayout` of `lib/xmaxclbin.h`: kernel name (the
64-byte field copied by `memcpy`) and base address. -/
structure XmaIpLayout where
  kernel_name : String
  base_addr : Nat
deriving DecidableEq, Repr

/-- Output record `XmaMemTopology`. -/
structure XmaMemTopology where
  m_type : Nat
  m_used : Nat
  m_size : Nat
  m_base_address : Nat
  m_tag : String
deriving DecidableEq, Repr

/-- Output record `XmaAXLFConnectivity`. -/
structure XmaAXLFConnectivity where
  arg_index : Nat
  m_ip_layout_index : Nat
  mem_data_index : Nat
deriving DecidableEq, Repr

/-- The output struct `XmaXclbinInfo` that the decoders populate in place.
The fixed-capacity C arrays are modelled as lists holding the written
prefix (plus whatever the caller's struct already held beyond it), with the
`number_of_*` fields giving the count of valid entries, exactly as in the
source.  `ip_ddr_mapping` is the per-kernel accessibility bitmap array,
modelled as a total map from kernel index to the 64-bit slot value. -/
structure XmaXclbinInfo where
  ip_layout : List XmaIpLayout
  number_of_kernels : Nat
  mem_topology : List XmaMemTopology
  number_of_mem_banks : Nat
  connectivity : List XmaAXLFConnectivity
  number_of_connections : Nat
  ip_ddr_mapping : Nat → Nat
  uuid : Nat

/-- The field copy `memcpy(...kernel_name, m_name, MAX_KERNEL_NAME)` plus
`base_addr` assignment of `get_xclbin_iplayout` (lines 78-80). -/
def toXmaIpLayout (d : IpData) : XmaIpLayout :=
  { kernel_name := d.m_name, base_addr := d.m_base_address }

/-- The verbatim field copies of `get_xclbin_mem_topology` (lines 118-123). -/
def toXmaMemTopology (d : MemData) : XmaMemTopology :=
  { m_type := d.m_type, m_used := d.m_used, m_size := d.m_size,
    m_base_address := d.m_base_address, m_tag := d.m_tag }

/-- The verbatim field copies of `get_xclbin_connectivity` (lines 153-155). -/
def toXmaAXLFConnectivity (c : Connection) : XmaAXLFConnectivity :=
  { arg_index := c.arg_index, m_ip_layout_index := c.m_ip_layout_index,
    mem_data_index := c.mem_data_index }

/-- Write at index `i` of an array modelled as a list: in range it replaces
the element, at index `length` it appends.  The decoder loops only ever
write at indices at most the current length (they count up from 0), so the
out-of-bounds C array write is never reached through them with in-capacity
inputs. -/
def listSet {α : Type} : List α → Nat → α → List α
  | [], _, x => [x]
  | _ :: t, 0, x => x :: t
  | h :: t, i + 1, x => h :: listSet t i x

/-- The accumulation loop of `get_xclbin_iplayout` (lines 69-84): skip
entries whose tag is not `IP_KERNEL`; otherwise check `number_of_kernels`
(the struct field, which the loop never increments -- it was set to 0 just
before the loop, the local counter is `j`) against `MAX_KERNEL_CONFIGS` and
copy the entry to slot `j`.  Returns (error flag, state, final `j`). -/
def iplayoutLoop : List IpData → XmaXclbinInfo → Nat → Bool × XmaXclbinInfo × Nat
  | [], info, j => (false, info, j)
  | d :: rest, info, j =>
    if d.m_type ≠ IP_KERNEL then
      iplayoutLoop rest info j
    else if info.number_of_kernels = MAX_KERNEL_CONFIGS then
      (true, info, j)
    else
      iplayoutLoop rest
        { info with ip_layout := listSet info.ip_layout j (toXmaIpLayout d) }
        (j + 1)

/-- `get_xclbin_iplayout` (lines 57-97): if the `IP_LAYOUT` section is
absent, return `XMA_ERROR` with the state untouched; otherwise zero
`number_of_kernels`, run the filtering loop over the first `m_count`
entries, store the final `j` into `number_of_kernels` and copy the
container's uuid into the model. -/
def get_xclbin_iplayout (xclbin : Axlf) (info : XmaXclbinInfo) :
    Int × XmaXclbinInfo :=
  match xclbin.ip_layout_section with
  | none => (XMA_ERROR, info)
  | some ipl =>
    let info0 := { info with number_of_kernels := 0 }
    match iplayoutLoop (ipl.m_ip_data.take ipl.m_count) info0 0 with
    | (err, info1, j) =>
      if err then (XMA_ERROR, info1)
      else (XMA_SUCCESS,
        { info1 with number_of_kernels := j, uuid := xclbin.uuid })

/-- The copy loop of `get_xclbin_mem_topology` (lines 116-127): copy bank
record `i` verbatim into `topology[i]`. -/
def memCopyLoop : List MemData → Nat → XmaXclbinInfo → XmaXclbinInfo
  | [], _, info => info
  | d :: rest, i, info =>
    memCopyLoop rest (i + 1)
      { info with mem_topology := listSet info.mem_topology i (toXmaMemTopology d) }

/-- `get_xclbin_mem_topology` (lines 99-136): absent section is an error
with the state untouched; otherwise the declared count is stored into
`number_of_mem_banks` first, then checked against `MAX_DDR_MAP` (so a
capacity error leaves the stored count behind), then the records are
copied. -/
def get_xclbin_mem_topology (xclbin : Axlf) (info : XmaXclbinInfo) :
    Int × XmaXclbinInfo :=
  match xclbin.mem_topology_section with
  | none => (XMA_ERROR, info)
  | some mt =>
    let info0 := { info with number_of_mem_banks := mt.m_count }
    if info0.number_of_mem_banks > MAX_DDR_MAP then (XMA_ERROR, info0)
    else (XMA_SUCCESS, memCopyLoop (mt.m_mem_data.take mt.m_count) 0 info0)

/-- The copy loop of `get_xclbin_connectivity` (lines 151-159). -/
def connCopyLoop : List Connection → Nat → XmaXclbinInfo → XmaXclbinInfo
  | [], _, info => info
  | c :: rest, i, info =>
    connCopyLoop rest (i + 1)
      { info with connectivity := listSet info.connectivity i (toXmaAXLFConnectivity c) }

/-- `get_xclbin_connectivity` (lines 138-168): absent section is an error
with the state untouched; otherwise the declared count is stored and the
records copied verbatim.  There is no capacity check here. -/
def get_xclbin_connectivity (xclbin : Axlf) (info : XmaXclbinInfo) :
    Int × XmaXclbinInfo :=
  match xclbin.connectivity_section with
  | none => (XMA_ERROR, info)
  | some cn =>
    let info0 := { info with number_of_connections := cn.m_count }
    (XMA_SUCCESS, connCopyLoop (cn.m_connection.take cn.m_count) 0 info0)

/-- The value OR-ed into the 64-bit `ip_ddr_mapping` slot by
`info->ip_ddr_mapping[...] |= 1 << (xma_conn->mem_data_index)` (line 187).
The literal `1` is a 32-bit `int`, so the shift is a 32-bit shift whose
result is sign-extended into the 64-bit slot: a count of 31 produces
`INT_MIN`, which widens to `0xFFFFFFFF80000000`; counts of 32 or more are
undefined behaviour in C, modelled here as the masking of the count to five
bits that compiled code performs on x86-64.  The mapping slots are 64-bit:
spec sections 3 and 4.5 make the bitmap width the bank capacity 64, and
`xma_xclbin_map2ddr` in the same source consumes them as `uint64_t`. -/
def cShl1 (n : Nat) : Nat :=
  let s := n % 32
  if s = 31 then 2 ^ 64 - 2 ^ 31 else 2 ^ s

/-- The bitmap derivation loop of `xma_xclbin_info_get` (lines 184-188):
for each connection record, OR `cShl1 mem_data_index` into the mapping slot
at `m_ip_layout_index`. -/
def ddrMapLoop : List XmaAXLFConnectivity → (Nat → Nat) → (Nat → Nat)
  | [], m => m
  | c :: rest, m =>
    ddrMapLoop rest
      (fun k => if k = c.m_ip_layout_index
                then m k ||| cShl1 c.mem_data_index
                else m k)

/-- `xma_xclbin_info_get` (lines 170-197): run the three decoders in order,
stopping at the first error; then zero `ip_ddr_mapping` (`memset`) and
derive the per-kernel accessibility bitmap from the stored connection
records. -/
def xma_xclbin_info_get (xclbin : Axlf) (info : XmaXclbinInfo) :
    Int × XmaXclbinInfo :=
  let r1 := get_xclbin_mem_topology xclbin info
  if r1.1 = XMA_ERROR then r1
  else
    let r2 := get_xclbin_connectivity xclbin r1.2
    if r2.1 = XMA_ERROR then r2
    else
      let r3 := get_xclbin_iplayout xclbin r2.2
      if r3.1 = XMA_ERROR then r3
      else
        let info3 := { r3.2 with ip_ddr_mapping := fun _ => 0 }
        let derived :=
          ddrMapLoop (info3.connectivity.take info3.number_of_connections)
            info3.ip_ddr_mapping
        (XMA_SUCCESS, { info3 with ip_ddr_mapping := derived })

/-- The scan loop of `xma_xclbin_map2ddr` (lines 203-212), with the output
parameter `*ddr_bank` passed as explicit state: while the bitmap is
nonzero, return the current index at the first set low bit, else shift
right and continue; a zero bitmap falls through to `XMA_ERROR` without
writing. -/
def map2ddrLoop (bit_map ddr_bank_idx : Nat) (ddr_bank : Int) : Int × Int :=
  if h0 : bit_map = 0 then (XMA_ERROR, ddr_bank)
  else if bit_map % 2 = 1 then (XMA_SUCCESS, Int.ofNat ddr_bank_idx)
  else map2ddrLoop (bit_map / 2) (ddr_bank_idx + 1) ddr_bank
termination_by bit_map
decreasing_by
  exact Nat.div_lt_self (Nat.pos_of_ne_zero h0) one_lt_two

/-- `xma_xclbin_map2ddr` (lines 199-214). -/
def xma_xclbin_map2ddr (bit_map : Nat) (ddr_bank : Int) : Int × Int :=
  map2ddrLoop bit_map 0 ddr_bank

end XmaXclbin

namespace RunSummary

/-- One lowercase hexadecimal digit, as `std::hex` with the default
lowercase formatting produces it. -/
def hexChar (n : Nat) : Char :=
  if n < 10 then Char.ofNat (48 + n) else Char.ofNat (87 + n)

/-- The two characters that
`buf << std::hex << std::setw(2) << std::setfill('0') << (unsigned int) b`
emits for one byte `b` (`run_summary.cpp` line 83): for values below 256
the width-2 zero-fill always yields exactly the high and the low nibble. -/
def byteToHexChars (b : Nat) : List Char :=
  [hexChar (b / 16), hexChar (b % 16)]

/-- The hex encoding loop of `RunSummary::extractSystemProfileMetadata`
(lines 80-86): each payload byte, in order, contributes its two lowercase
hex digits; no separators; an empty payload leaves the stream empty. -/
def to_hex (bytes : List Nat) : String :=
  String.mk (bytes.map byteToHexChars).flatten

/-- Value of a lowercase hex digit character (inverse of `hexChar`). -/
def hexCharVal (c : Char) : Nat :=
  if 97 ≤ c.toNat then c.toNat - 87 else c.toNat - 48

/-- The inverse decode used for verification (outside the core's
responsibility, per the spec): consume two hex digits per byte. -/
def from_hex_chars : List Char → Option (List Nat)
  | [] => some []
  | [_] => none
  | c1 :: c2 :: rest =>
    (from_hex_chars rest).map (fun bs => (hexCharVal c1 * 16 + hexCharVal c2) :: bs)

/-- Inverse decode on strings. -/
def from_hex (s : String) : Option (List Nat) :=
  from_hex_chars s.data

/-- `extractSystemProfileMetadata` on the section level: if the container
has no `SYSTEM_METADATA` section the metadata string stays cleared,
otherwise it is the hex encoding of the payload bytes. -/
def extractSystemProfileMetadata (xclbin : XmaXclbin.Axlf) : String :=
  match xclbin.system_metadata_section with
  | none => ""
  | some bytes => to_hex bytes

end RunSummary

namespace BoCache

/-- State of `xrt_core::bo_cache` (`bo_cache.h`): the configured maximum
pool size `mCacheMaxSize` (0 disables caching), the pool `mCmdBOCache`
modelled as a list whose last element is the vector's back, and a counter
standing in for the fresh handles `xclAllocBO` returns.  Buffer objects are
identified by their handle. -/
structure State where
  mCacheMaxSize : Nat
  mCmdBOCache : List Nat
  nextHandle : Nat
deriving DecidableEq, Repr

/-- What one cache operation did to its buffer object: served from the
pool, freshly allocated (`xclAllocBO`/`xclMapBO`), parked in the pool, or
destroyed (`munmap`/`xclFreeBO`). -/
inductive Event where
  | fromCache (bo : Nat)
  | fresh (bo : Nat)
  | cached (bo : Nat)
  | destroyed (bo : Nat)
deriving DecidableEq, Repr

/-- The fall-through allocation of `alloc_impl` (lines 89-90). -/
def freshAlloc (s : State) : Nat × Event × State :=
  (s.nextHandle, .fresh s.nextHandle, { s with nextHandle := s.nextHandle + 1 })

/-- `bo_cache::alloc_impl` (lines 76-91): when caching is enabled and the
pool is non-empty, pop the back of the pool; otherwise allocate a fresh
buffer object. -/
def alloc_impl (s : State) : Nat × Event × State :=
  if s.mCacheMaxSize ≠ 0 then
    match s.mCmdBOCache.getLast? with
    | some bo => (bo, .fromCache bo, { s with mCmdBOCache := s.mCmdBOCache.dropLast })
    | none => freshAlloc s
  else freshAlloc s

/-- `bo_cache::release_impl` (lines 93-105): when caching is enabled and
the pool is not full, park the buffer object at the back of the pool;
otherwise destroy it. -/
def release_impl (bo : Nat) (s : State) : Event × State :=
  if s.mCacheMaxSize ≠ 0 ∧ s.mCmdBOCache.length < s.mCacheMaxSize then
    (.cached bo, { s with mCmdBOCache := s.mCmdBOCache ++ [bo] })
  else (.destroyed bo, s)

/-- A client-visible cache operation. -/
inductive Op where
  | alloc
  | release (bo : Nat)
deriving DecidableEq, Repr

/-- One operation against the cache, returning the event it performed. -/
def step (s : State) : Op → Event × State
  | .alloc => let r := alloc_impl s; (r.2.1, r.2.2)
  | .release bo => release_impl bo s

/-- Run a sequence of operations, collecting the events. -/
def run (s : State) : List Op → List Event × State
  | [] => ([], s)
  | op :: rest =>
    let r := step s op
    let rs := run r.2 rest
    (r.1 :: rs.1, rs.2)

/-- The cache as constructed by `bo_cache(handle, max_size)`: empty pool. -/
def init (max_size : Nat) : State :=
  { mCacheMaxSize := max_size, mCmdBOCache := [], nextHandle := 0 }

end BoCache

namespace Fixtures

open XmaXclbin

/-- A zeroed `XmaXclbinInfo`, the state of a freshly cleared output struct. -/
def info0 : XmaXclbinInfo :=
  { ip_layout := [], number_of_kernels := 0, mem_topology := [],
    number_of_mem_banks := 0, connectivity := [], number_of_connections := 0,
    ip_ddr_mapping := fun _ => 0, uuid := 0 }

/-- A plain memory-bank record. -/
def bank0 : MemData :=
  { m_type := 0, m_used := 1, m_size := 4096, m_base_address := 0, m_tag := "bank" }

/-- Container with 1 kernel, 33 banks and a single connection wiring kernel
0 to bank 31: both indices are valid, and bank index 32 is also valid. -/
def cxBank31 : Axlf :=
  { uuid := 7,
    ip_layout_section := some { m_count := 1, m_ip_data := [{ m_type := IP_KERNEL, m_name := "conv", m_base_address := 0 }] },
    mem_topology_section := some { m_count := 33, m_mem_data := List.replicate 33 bank0 },
    connectivity_section := some { m_count := 1, m_connection := [{ arg_index := 0, m_ip_layout_index := 0, mem_data_index := 31 }] },
    system_metadata_section := none }

/-- Container whose `IP_LAYOUT` section declares `MAX_KERNEL_CONFIGS + 1`
kernel-typed entries, one past the maximum kernel capacity. -/
def cxOverCap : Axlf :=
  { uuid := 0,
    ip_layout_section := some { m_count := MAX_KERNEL_CONFIGS + 1, m_ip_data := List.replicate (MAX_KERNEL_CONFIGS + 1) { m_type := IP_KERNEL, m_name := "k", m_base_address := 0 } },
    mem_topology_section := none,
    connectivity_section := none,
    system_metadata_section := none }

/-- A `MEM_TOPOLOGY` section declaring 65 banks, one past the capacity. -/
def mt65 : MemTopology := { m_count := 65, m_mem_data := [] }

/-- Container whose `MEM_TOPOLOGY` section declares 65 banks, one past the
bank capacity. -/
def cxMem65 : Axlf :=
  { uuid := 0,
    ip_layout_section := none,
    mem_topology_section := some mt65,
    connectivity_section := none,
    system_metadata_section := none }

/-- Container with no sections at all. -/
def cxNone : Axlf :=
  { uuid := 0, ip_layout_section := none, mem_topology_section := none,
    connectivity_section := none, system_metadata_section := none }

/-- An `IP_LAYOUT` section mixing kernel-typed and non-kernel entries. -/
def mixedIpl : IpLayout :=
  { m_count := 4,
    m_ip_data :=
      [{ m_type := IP_KERNEL, m_name := "conv", m_base_address := 16 },
       { m_type := 0, m_name := "firewall", m_base_address := 48 },
       { m_type := IP_KERNEL, m_name := "relu", m_base_address := 32 },
       { m_type := 2, m_name := "ddr4", m_base_address := 64 }] }

/-- Container carrying the mixed `IP_LAYOUT` section. -/
def cxMixed : Axlf :=
  { uuid := 3, ip_layout_section := some mixedIpl, mem_topology_section := none,
    connectivity_section := none, system_metadata_section := none }

/-- A well-formed `IP_LAYOUT` section with 2 kernel-typed entries. -/
def goodIpl : IpLayout :=
  { m_count := 2,
    m_ip_data := [{ m_type := IP_KERNEL, m_name := "conv", m_base_address := 16 },
                  { m_type := IP_KERNEL, m_name := "relu", m_base_address := 32 }] }

/-- A well-formed `MEM_TOPOLOGY` section with 2 bank records. -/
def goodMt : MemTopology :=
  { m_count := 2, m_mem_data := List.replicate 2 bank0 }

/-- A well-formed `CONNECTIVITY` section with 1 connection record. -/
def goodCn : Connectivity :=
  { m_count := 1,
    m_connection := [{ arg_index := 0, m_ip_layout_index := 1, mem_data_index := 0 }] }

/-- A well-formed container with 2 kernels, 2 banks and 1 connection. -/
def cxGood : Axlf :=
  { uuid := 11, ip_layout_section := some goodIpl,
    mem_topology_section := some goodMt, connectivity_section := some goodCn,
    system_metadata_section := none }

/-- A `MEM_TOPOLOGY` section declaring exactly the maximum bank capacity. -/
def mt64 : MemTopology :=
  { m_count := 64, m_mem_data := List.replicate 64 bank0 }

/-- Container whose `MEM_TOPOLOGY` section declares exactly 64 banks. -/
def cxMem64 : Axlf :=
  { uuid := 0, ip_layout_section := none, mem_topology_section := some mt64,
    connectivity_section := none, system_metadata_section := none }

end Fixtures

namespace XmaXclbin

theorem length_listSet {α : Type} (l : List α) (j : Nat) (x : α) (h : j ≤ l.length) :
    (listSet l j x).length = max l.length (j + 1) := by
  induction l generalizing j with
  | nil =>
    have hj : j = 0 := Nat.le_zero.mp (by simpa using h)
    subst hj
    simp [listSet]
  | cons a t ih =>
    cases j with
    | zero => simp [listSet]
    | succ k =>
      have hk : k ≤ t.length := by simp at h; omega
      simp [listSet, ih k hk]
      omega

theorem take_listSet {α : Type} (l : List α) (j : Nat) (x : α) (h : j ≤ l.length) :
    (listSet l j x).take (j + 1) = l.take j ++ [x] := by
  induction l generalizing j with
  | nil =>
    have hj : j = 0 := Nat.le_zero.mp (by simpa using h)
    subst hj
    simp [listSet]
  | cons a t ih =>
    cases j with
    | zero => simp [listSet]
    | succ k =>
      have hk : k ≤ t.length := by simp at h; omega
      simp [listSet, List.take_succ_cons, ih k hk]

theorem iplayoutLoop_state (e : List IpData) (info : XmaXclbinInfo) (j : Nat) :
    (iplayoutLoop e info j).2.1 =
      { info with ip_layout := (iplayoutLoop e info j).2.1.ip_layout } := by
  induction e generalizing info j with
  | nil => rfl
  | cons d rest ih =>
    simp only [iplayoutLoop]
    split
    · exact ih info j
    · split
      · rfl
      · rw [ih]

theorem memCopyLoop_state (data : List MemData) (i : Nat) (info : XmaXclbinInfo) :
    memCopyLoop data i info =
      { info with mem_topology := (memCopyLoop data i info).mem_topology } := by
  induction data generalizing info i with
  | nil => rfl
  | cons d rest ih => simp only [memCopyLoop]; rw [ih]

theorem connCopyLoop_state (data : List Connection) (i : Nat) (info : XmaXclbinInfo) :
    connCopyLoop data i info =
      { info with connectivity := (connCopyLoop data i info).connectivity } := by
  induction data generalizing info i with
  | nil => rfl
  | cons c rest ih => simp only [connCopyLoop]; rw [ih]

theorem iplayoutLoop_spec (e : List IpData) (info : XmaXclbinInfo) (j : Nat)
    (hk : info.number_of_kernels ≠ MAX_KERNEL_CONFIGS)
    (hj : j ≤ info.ip_layout.length) :
    (iplayoutLoop e info j).1 = false ∧
    (iplayoutLoop e info j).2.2 =
      j + (e.filter fun d => d.m_type = IP_KERNEL).length ∧
    (iplayoutLoop e info j).2.1.ip_layout.take (iplayoutLoop e info j).2.2 =
      info.ip_layout.take j ++
        ((e.filter fun d => d.m_type = IP_KERNEL).map toXmaIpLayout) ∧
    (iplayoutLoop e info j).2.2 ≤ (iplayoutLoop e info j).2.1.ip_layout.length := by
  induction e generalizing info j with
  | nil => simpa [iplayoutLoop] using hj
  | cons d rest ih =>
    by_cases hd : d.m_type = IP_KERNEL
    · have hcond : ¬(d.m_type ≠ IP_KERNEL) := by simp [hd]
      simp only [iplayoutLoop, if_neg hcond, if_neg hk]
      have hj1 : j + 1 ≤
          (listSet info.ip_layout j (toXmaIpLayout d)).length := by
        rw [length_listSet info.ip_layout j (toXmaIpLayout d) hj]; omega
      obtain ⟨e1, e2, e3, e4⟩ :=
        ih { info with ip_layout := listSet info.ip_layout j (toXmaIpLayout d) }
          (j + 1) hk hj1
      refine ⟨e1, ?_, ?_, e4⟩
      · rw [e2]; simp [List.filter_cons, hd]; omega
      · rw [e3]
        simp only [List.filter_cons, hd]
        simp [take_listSet info.ip_layout j (toXmaIpLayout d) hj]
    · simp only [iplayoutLoop, if_pos hd]
      obtain ⟨e1, e2, e3, e4⟩ := ih info j hk hj
      refine ⟨e1, ?_, ?_, e4⟩
      · rw [e2]; simp [List.filter_cons, hd]
      · rw [e3]; simp [List.filter_cons, hd]

theorem memCopyLoop_spec (data : List MemData) (i : Nat) (info : XmaXclbinInfo)
    (hi : i ≤ info.mem_topology.length) :
    (memCopyLoop data i info).mem_topology.take (i + data.length) =
      info.mem_topology.take i ++ data.map toXmaMemTopology ∧
    i + data.length ≤ (memCopyLoop data i info).mem_topology.length := by
  induction data generalizing info i with
  | nil => simpa [memCopyLoop] using hi
  | cons d rest ih =>
    simp only [memCopyLoop]
    have hi1 : i + 1 ≤ (listSet info.mem_topology i (toXmaMemTopology d)).length := by
      rw [length_listSet info.mem_topology i (toXmaMemTopology d) hi]; omega
    obtain ⟨e1, e2⟩ :=
      ih (i + 1) { info with mem_topology := listSet info.mem_topology i (toXmaMemTopology d) } hi1
    have harith : i + (rest.length + 1) = (i + 1) + rest.length := by omega
    constructor
    · simp only [List.length_cons, harith]
      rw [e1]
      simp [take_listSet info.mem_topology i (toXmaMemTopology d) hi]
    · simp only [List.length_cons, harith]
      exact e2

theorem connCopyLoop_spec (data : List Connection) (i : Nat) (info : XmaXclbinInfo)
    (hi : i ≤ info.connectivity.length) :
    (connCopyLoop data i info).connectivity.take (i + data.length) =
      info.connectivity.take i ++ data.map toXmaAXLFConnectivity ∧
    i + data.length ≤ (connCopyLoop data i info).connectivity.length := by
  induction data generalizing info i with
  | nil => simpa [connCopyLoop] using hi
  | cons c rest ih =>
    simp only [connCopyLoop]
    have hi1 : i + 1 ≤ (listSet info.connectivity i (toXmaAXLFConnectivity c)).length := by
      rw [length_listSet info.connectivity i (toXmaAXLFConnectivity c) hi]; omega
    obtain ⟨e1, e2⟩ :=
      ih (i + 1) { info with connectivity := listSet info.connectivity i (toXmaAXLFConnectivity c) } hi1
    have harith : i + (rest.length + 1) = (i + 1) + rest.length := by omega
    constructor
    · simp only [List.length_cons, harith]
      rw [e1]
      simp [take_listSet info.connectivity i (toXmaAXLFConnectivity c) hi]
    · simp only [List.length_cons, harith]
      exact e2

theorem get_xclbin_iplayout_spec (xclbin : Axlf) (ipl : IpLayout)
    (info : XmaXclbinInfo) (hs : xclbin.ip_layout_section = some ipl) :
    (get_xclbin_iplayout xclbin info).1 = XMA_SUCCESS ∧
    (get_xclbin_iplayout xclbin info).2.number_of_kernels =
      ((ipl.m_ip_data.take ipl.m_count).filter fun d => d.m_type = IP_KERNEL).length ∧
    (get_xclbin_iplayout xclbin info).2.ip_layout.take
        (get_xclbin_iplayout xclbin info).2.number_of_kernels =
      ((ipl.m_ip_data.take ipl.m_count).filter fun d => d.m_type = IP_KERNEL).map
        toXmaIpLayout ∧
    (get_xclbin_iplayout xclbin info).2.mem_topology = info.mem_topology ∧
    (get_xclbin_iplayout xclbin info).2.number_of_mem_banks = info.number_of_mem_banks ∧
    (get_xclbin_iplayout xclbin info).2.connectivity = info.connectivity ∧
    (get_xclbin_iplayout xclbin info).2.number_of_connections = info.number_of_connections ∧
    (get_xclbin_iplayout xclbin info).2.ip_ddr_mapping = info.ip_ddr_mapping ∧
    (get_xclbin_iplayout xclbin info).2.uuid = xclbin.uuid := by
  have hk : ({ info with number_of_kernels := 0 } : XmaXclbinInfo).number_of_kernels
      ≠ MAX_KERNEL_CONFIGS := by
    show (0 : Nat) ≠ MAX_KERNEL_CONFIGS
    decide
  obtain ⟨e1, e2, e3, e4⟩ :=
    iplayoutLoop_spec (ipl.m_ip_data.take ipl.m_count)
      { info with number_of_kernels := 0 } 0 hk (Nat.zero_le _)
  have hst :=
    iplayoutLoop_state (ipl.m_ip_data.take ipl.m_count)
      { info with number_of_kernels := 0 } 0
  simp only [get_xclbin_iplayout, hs, e1, Bool.false_eq_true, if_false]
  refine ⟨trivial, ?_, ?_, ?_, ?_, ?_, ?_, ?_, trivial⟩
  · simpa using e2
  · rw [show (iplayoutLoop (ipl.m_ip_data.take ipl.m_count)
        { info with number_of_kernels := 0 } 0).2.1.ip_layout.take
        (iplayoutLoop (ipl.m_ip_data.take ipl.m_count)
          { info with number_of_kernels := 0 } 0).2.2 =
        _ from e3]
    simp
  · rw [hst]
  · rw [hst]
  · rw [hst]
  · rw [hst]
  · rw [hst]

theorem get_xclbin_mem_topology_ok (xclbin : Axlf) (mt : MemTopology)
    (info : XmaXclbinInfo) (hs : xclbin.mem_topology_section = some mt)
    (hcap : mt.m_count ≤ MAX_DDR_MAP) :
    (get_xclbin_mem_topology xclbin info).1 = XMA_SUCCESS ∧
    (get_xclbin_mem_topology xclbin info).2.number_of_mem_banks = mt.m_count ∧
    (get_xclbin_mem_topology xclbin info).2.mem_topology.take
        (mt.m_mem_data.take mt.m_count).length =
      (mt.m_mem_data.take mt.m_count).map toXmaMemTopology ∧
    (get_xclbin_mem_topology xclbin info).2.ip_layout = info.ip_layout ∧
    (get_xclbin_mem_topology xclbin info).2.number_of_kernels = info.number_of_kernels ∧
    (get_xclbin_mem_topology xclbin info).2.connectivity = info.connectivity ∧
    (get_xclbin_mem_topology xclbin info).2.number_of_connections = info.number_of_connections ∧
    (get_xclbin_mem_topology xclbin info).2.ip_ddr_mapping = info.ip_ddr_mapping ∧
    (get_xclbin_mem_topology xclbin info).2.uuid = info.uuid := by
  have hno : ¬ (({ info with number_of_mem_banks := mt.m_count } :
      XmaXclbinInfo).number_of_mem_banks > MAX_DDR_MAP) := by
    show ¬ (mt.m_count > MAX_DDR_MAP)
    omega
  obtain ⟨e1, e2⟩ :=
    memCopyLoop_spec (mt.m_mem_data.take mt.m_count) 0
      { info with number_of_mem_banks := mt.m_count } (Nat.zero_le _)
  have hst :=
    memCopyLoop_state (mt.m_mem_data.take mt.m_count) 0
      { info with number_of_mem_banks := mt.m_count }
  simp only [get_xclbin_mem_topology, hs, if_neg hno]
  refine ⟨trivial, ?_, ?_, ?_, ?_, ?_, ?_, ?_, ?_⟩
  · rw [hst]
  · simpa using e1
  · rw [hst]
  · rw [hst]
  · rw [hst]
  · rw [hst]
  · rw [hst]
  · rw [hst]

theorem get_xclbin_connectivity_spec (xclbin : Axlf) (cn : Connectivity)
    (info : XmaXclbinInfo) (hs : xclbin.connectivity_section = some cn) :
    (get_xclbin_connectivity xclbin info).1 = XMA_SUCCESS ∧
    (get_xclbin_connectivity xclbin info).2.number_of_connections = cn.m_count ∧
    (get_xclbin_connectivity xclbin info).2.connectivity.take
        (cn.m_connection.take cn.m_count).length =
      (cn.m_connection.take cn.m_count).map toXmaAXLFConnectivity ∧
    (get_xclbin_connectivity xclbin info).2.ip_layout = info.ip_layout ∧
    (get_xclbin_connectivity xclbin info).2.number_of_kernels = info.number_of_kernels ∧
    (get_xclbin_connectivity xclbin info).2.mem_topology = info.mem_topology ∧
    (get_xclbin_connectivity xclbin info).2.number_of_mem_banks = info.number_of_mem_banks ∧
    (get_xclbin_connectivity xclbin info).2.ip_ddr_mapping = info.ip_ddr_mapping ∧
    (get_xclbin_connectivity xclbin info).2.uuid = info.uuid := by
  obtain ⟨e1, e2⟩ :=
    connCopyLoop_spec (cn.m_connection.take cn.m_count) 0
      { info with number_of_connections := cn.m_count } (Nat.zero_le _)
  have hst :=
    connCopyLoop_state (cn.m_connection.take cn.m_count) 0
      { info with number_of_connections := cn.m_count }
  simp only [get_xclbin_connectivity, hs]
  refine ⟨trivial, ?_, ?_, ?_, ?_, ?_, ?_, ?_, ?_⟩
  · rw [hst]
  · simpa using e1
  · rw [hst]
  · rw [hst]
  · rw [hst]
  · rw [hst]
  · rw [hst]
  · rw [hst]

theorem info_get_components (xclbin : Axlf) (info : XmaXclbinInfo)
    (h1 : ¬ (get_xclbin_mem_topology xclbin info).1 = XMA_ERROR)
    (h2 : ¬ (get_xclbin_connectivity xclbin
        (get_xclbin_mem_topology xclbin info).2).1 = XMA_ERROR)
    (h3 : ¬ (get_xclbin_iplayout xclbin
        (get_xclbin_connectivity xclbin
          (get_xclbin_mem_topology xclbin info).2).2).1 = XMA_ERROR) :
    (xma_xclbin_info_get xclbin info).1 = XMA_SUCCESS ∧
    (xma_xclbin_info_get xclbin info).2.ip_layout =
      (get_xclbin_iplayout xclbin (get_xclbin_connectivity xclbin (get_xclbin_mem_topology xclbin info).2).2).2.ip_layout ∧
    (xma_xclbin_info_get xclbin info).2.number_of_kernels =
      (get_xclbin_iplayout xclbin (get_xclbin_connectivity xclbin (get_xclbin_mem_topology xclbin info).2).2).2.number_of_kernels ∧
    (xma_xclbin_info_get xclbin info).2.mem_topology =
      (get_xclbin_iplayout xclbin (get_xclbin_connectivity xclbin (get_xclbin_mem_topology xclbin info).2).2).2.mem_topology ∧
    (xma_xclbin_info_get xclbin info).2.number_of_mem_banks =
      (get_xclbin_iplayout xclbin (get_xclbin_connectivity xclbin (get_xclbin_mem_topology xclbin info).2).2).2.number_of_mem_banks ∧
    (xma_xclbin_info_get xclbin info).2.connectivity =
      (get_xclbin_iplayout xclbin (get_xclbin_connectivity xclbin (get_xclbin_mem_topology xclbin info).2).2).2.connectivity ∧
    (xma_xclbin_info_get xclbin info).2.number_of_connections =
      (get_xclbin_iplayout xclbin (get_xclbin_connectivity xclbin (get_xclbin_mem_topology xclbin info).2).2).2.number_of_connections ∧
    (xma_xclbin_info_get xclbin info).2.uuid =
      (get_xclbin_iplayout xclbin (get_xclbin_connectivity xclbin (get_xclbin_mem_topology xclbin info).2).2).2.uuid := by
  simp only [xma_xclbin_info_get]
  rw [if_neg h1, if_neg h2, if_neg h3]
  exact ⟨rfl, rfl, rfl, rfl, rfl, rfl, rfl, rfl⟩

end XmaXclbin

open XmaXclbin Fixtures

/-- C1: the claim that for a decoded model every connection record with
valid kernel and bank indices sets exactly bit `bank_index` of that
kernel's accessibility bitmap (and every (kernel, bank) pair without a
record has its bit clear) fails on the code.  With 1 kernel, 33 banks and
the single connection (kernel 0, bank 31) — both indices valid — the build
succeeds, the only stored connection references bank 31, yet bit 32 (a
valid bank index with no connection record) of kernel 0's bitmap is set:
the shifted literal `1` at line 187 is a 32-bit `int`, and `1 << 31`
sign-extends into the 64-bit mapping slot. -/
theorem claim1_bitmap_code_bug :
    (xma_xclbin_info_get cxBank31 info0).1 = XMA_SUCCESS ∧
    (xma_xclbin_info_get cxBank31 info0).2.number_of_kernels = 1 ∧
    (xma_xclbin_info_get cxBank31 info0).2.number_of_mem_banks = 33 ∧
    ((xma_xclbin_info_get cxBank31 info0).2.connectivity.take
        (xma_xclbin_info_get cxBank31 info0).2.number_of_connections =
      [{ arg_index := 0, m_ip_layout_index := 0, mem_data_index := 31 }]) ∧
    Nat.testBit ((xma_xclbin_info_get cxBank31 info0).2.ip_ddr_mapping 0) 31 = true ∧
    Nat.testBit ((xma_xclbin_info_get cxBank31 info0).2.ip_ddr_mapping 0) 32 = true := by
  decide

/-- C2: decoding an `IP_LAYOUT` section that mixes kernel-typed and
non-kernel entries succeeds and yields, as the valid prefix of the kernel
array, exactly the kernel-typed entries in source order, renumbered
contiguously from 0 (the filtered list mapped through the field copy). -/
theorem claim2_kernel_filtering (xclbin : Axlf) (ipl : IpLayout)
    (info : XmaXclbinInfo) (hs : xclbin.ip_layout_section = some ipl) :
    (get_xclbin_iplayout xclbin info).1 = XMA_SUCCESS ∧
    (get_xclbin_iplayout xclbin info).2.ip_layout.take
        (get_xclbin_iplayout xclbin info).2.number_of_kernels =
      ((ipl.m_ip_data.take ipl.m_count).filter fun d => d.m_type = IP_KERNEL).map
        toXmaIpLayout := by
  obtain ⟨e1, _, e3, _⟩ := get_xclbin_iplayout_spec xclbin ipl info hs
  exact ⟨e1, e3⟩

/-- Witness for C2 at the concrete mixed section `mixedIpl`. -/
theorem claim2_kernel_filtering_witness :
    (get_xclbin_iplayout cxMixed info0).1 = XMA_SUCCESS ∧
    (get_xclbin_iplayout cxMixed info0).2.ip_layout.take
        (get_xclbin_iplayout cxMixed info0).2.number_of_kernels =
      ((mixedIpl.m_ip_data.take mixedIpl.m_count).filter fun d => d.m_type = IP_KERNEL).map
        toXmaIpLayout :=
  claim2_kernel_filtering cxMixed mixedIpl info0 rfl

/-- C3: the claim that a kernel-layout section declaring capacity + 1
kernel-typed entries fails with a capacity error is false on the code: the
capacity check at line 74 compares `number_of_kernels`, which was set to 0
just before the loop and is never incremented inside it (the loop counter
is the local `j`), so it can never fire.  `MAX_KERNEL_CONFIGS + 1`
kernel-typed entries decode with a success return code (in C this also
writes one slot past the fixed array). -/
theorem claim3_capacity_check_never_fires :
    (get_xclbin_iplayout cxOverCap info0).1 = XMA_SUCCESS ∧
    (get_xclbin_iplayout cxOverCap info0).2.number_of_kernels =
      MAX_KERNEL_CONFIGS + 1 := by
  decide

/-- C4 (counterexample): a decoder can modify the output model and still
return an error.  On a `MEM_TOPOLOGY` section declaring 65 banks, the
memory-topology decoder stores the declared count into the model at line
110, before the capacity check at line 112, and then returns `XMA_ERROR`:
the output struct differs from its initial state. -/
theorem claim4_counterexample :
    (get_xclbin_mem_topology cxMem65 info0).1 = XMA_ERROR ∧
    (get_xclbin_mem_topology cxMem65 info0).2.number_of_mem_banks = 65 ∧
    info0.number_of_mem_banks = 0 ∧
    (get_xclbin_mem_topology cxMem65 info0).2 ≠ info0 := by
  refine ⟨by decide, by decide, by decide, ?_⟩
  intro h
  have h2 : (get_xclbin_mem_topology cxMem65 info0).2.number_of_mem_banks =
      info0.number_of_mem_banks := by rw [h]
  revert h2
  decide

/-- C4 (amended): on error the kernel-layout and connectivity decoders
leave the output model completely unchanged, and the memory-topology
decoder leaves everything unchanged except that it may already have stored
the declared bank count (it writes that count before its capacity check);
no kernel, bank or connection records and no other count fields are ever
written before an error return. -/
theorem claim4_amended (xclbin : Axlf) (info : XmaXclbinInfo) :
    ((get_xclbin_iplayout xclbin info).1 = XMA_ERROR →
      (get_xclbin_iplayout xclbin info).2 = info) ∧
    ((get_xclbin_connectivity xclbin info).1 = XMA_ERROR →
      (get_xclbin_connectivity xclbin info).2 = info) ∧
    ((get_xclbin_mem_topology xclbin info).1 = XMA_ERROR →
      (get_xclbin_mem_topology xclbin info).2 = { info with number_of_mem_banks := (get_xclbin_mem_topology xclbin info).2.number_of_mem_banks }) := by
  refine ⟨?_, ?_, ?_⟩
  · intro h
    match hs : xclbin.ip_layout_section with
    | none => simp [get_xclbin_iplayout, hs]
    | some ipl =>
      exfalso
      have hsucc := (get_xclbin_iplayout_spec xclbin ipl info hs).1
      rw [hsucc] at h
      exact absurd h (by decide)
  · intro h
    match hs : xclbin.connectivity_section with
    | none => simp [get_xclbin_connectivity, hs]
    | some cn =>
      exfalso
      have hsucc := (get_xclbin_connectivity_spec xclbin cn info hs).1
      rw [hsucc] at h
      exact absurd h (by decide)
  · intro h
    match hs : xclbin.mem_topology_section with
    | none => simp [get_xclbin_mem_topology, hs]
    | some mt =>
      by_cases hc : mt.m_count > MAX_DDR_MAP
      · simp [get_xclbin_mem_topology, hs, hc]
      · exfalso
        have hsucc := (get_xclbin_mem_topology_ok xclbin mt info hs (by omega)).1
        rw [hsucc] at h
        exact absurd h (by decide)

/-- Witness for C4 (amended): a missing `IP_LAYOUT` or `CONNECTIVITY`
section leaves the zeroed model untouched, and the 65-bank capacity error
leaves everything but the bank count untouched. -/
theorem claim4_amended_witness :
    (get_xclbin_iplayout cxNone info0).2 = info0 ∧
    (get_xclbin_connectivity cxNone info0).2 = info0 ∧
    (get_xclbin_mem_topology cxMem65 info0).2 = { info0 with number_of_mem_banks := (get_xclbin_mem_topology cxMem65 info0).2.number_of_mem_banks } :=
  ⟨(claim4_amended cxNone info0).1 rfl,
   (claim4_amended cxNone info0).2.1 rfl,
   (claim4_amended cxMem65 info0).2.2 rfl⟩

/-- C5: a container without a `MEM_TOPOLOGY` section header makes the
memory-topology decoder fail with the section-not-found error and the
model untouched, and `xma_xclbin_info_get` stops right there, returning
the same error with the model still in its initial state. -/
theorem claim5_missing_mem_topology (xclbin : Axlf) (info : XmaXclbinInfo)
    (h : xclbin.mem_topology_section = none) :
    get_xclbin_mem_topology xclbin info = (XMA_ERROR, info) ∧
    xma_xclbin_info_get xclbin info = (XMA_ERROR, info) := by
  have h1 : get_xclbin_mem_topology xclbin info = (XMA_ERROR, info) := by
    simp [get_xclbin_mem_topology, h]
  refine ⟨h1, ?_⟩
  simp [xma_xclbin_info_get, h1]

/-- Witness for C5 at the concrete sectionless container. -/
theorem claim5_missing_mem_topology_witness :
    get_xclbin_mem_topology cxNone info0 = (XMA_ERROR, info0) ∧
    xma_xclbin_info_get cxNone info0 = (XMA_ERROR, info0) :=
  claim5_missing_mem_topology cxNone info0 rfl

/-- C6: on a present `MEM_TOPOLOGY` section the decode fails exactly when
the declared bank count exceeds `MAX_DDR_MAP` (64), and a declared count
of exactly 64 decodes successfully. -/
theorem claim6_bank_capacity (xclbin : Axlf) (mt : MemTopology)
    (info : XmaXclbinInfo) (hs : xclbin.mem_topology_section = some mt) :
    ((get_xclbin_mem_topology xclbin info).1 = XMA_ERROR ↔
      MAX_DDR_MAP < mt.m_count) ∧
    (mt.m_count = MAX_DDR_MAP →
      (get_xclbin_mem_topology xclbin info).1 = XMA_SUCCESS) := by
  by_cases hc : MAX_DDR_MAP < mt.m_count
  · have h1 : (get_xclbin_mem_topology xclbin info).1 = XMA_ERROR := by
      simp [get_xclbin_mem_topology, hs, hc]
    refine ⟨by simp [h1, hc], ?_⟩
    intro he
    rw [he] at hc
    exact absurd hc (lt_irrefl _)
  · have h1 : (get_xclbin_mem_topology xclbin info).1 = XMA_SUCCESS :=
      (get_xclbin_mem_topology_ok xclbin mt info hs (by omega)).1
    refine ⟨?_, fun _ => h1⟩
    rw [h1]
    constructor
    · intro h; exact absurd h (by decide)
    · intro h; exact absurd h hc

/-- Witness for C6: the 64-bank section decodes successfully and the
65-bank section fails. -/
theorem claim6_bank_capacity_witness :
    (get_xclbin_mem_topology cxMem64 info0).1 = XMA_SUCCESS ∧
    (get_xclbin_mem_topology cxMem65 info0).1 = XMA_ERROR :=
  ⟨(claim6_bank_capacity cxMem64 mt64 info0 rfl).2 rfl,
   (claim6_bank_capacity cxMem65 mt65 info0 rfl).1.mpr (by decide)⟩

/-- C8: on a well-formed container — all three sections present, each
declared count matching the number of records, counts within capacity, and
every `IP_LAYOUT` entry kernel-typed — the pipeline succeeds and the valid
prefixes of the three output arrays are exactly the input records, in
source order, field for field.  The kernel-capacity bound is part of
well-formedness (beyond it the C code writes out of bounds); the list
model itself does not consume it. -/
theorem claim8_round_trip (xclbin : Axlf) (ipl : IpLayout) (mt : MemTopology)
    (cn : Connectivity) (info : XmaXclbinInfo)
    (hip : xclbin.ip_layout_section = some ipl)
    (hipc : ipl.m_count = ipl.m_ip_data.length)
    (hipk : ∀ d ∈ ipl.m_ip_data, d.m_type = IP_KERNEL)
    (_hipcap : ipl.m_ip_data.length ≤ MAX_KERNEL_CONFIGS)
    (hmem : xclbin.mem_topology_section = some mt)
    (hmemc : mt.m_count = mt.m_mem_data.length)
    (hmemcap : mt.m_count ≤ MAX_DDR_MAP)
    (hconn : xclbin.connectivity_section = some cn)
    (hconnc : cn.m_count = cn.m_connection.length) :
    (xma_xclbin_info_get xclbin info).1 = XMA_SUCCESS ∧
    (xma_xclbin_info_get xclbin info).2.number_of_kernels = ipl.m_ip_data.length ∧
    (xma_xclbin_info_get xclbin info).2.ip_layout.take ipl.m_ip_data.length =
      ipl.m_ip_data.map toXmaIpLayout ∧
    (xma_xclbin_info_get xclbin info).2.number_of_mem_banks = mt.m_mem_data.length ∧
    (xma_xclbin_info_get xclbin info).2.mem_topology.take mt.m_mem_data.length =
      mt.m_mem_data.map toXmaMemTopology ∧
    (xma_xclbin_info_get xclbin info).2.number_of_connections = cn.m_connection.length ∧
    (xma_xclbin_info_get xclbin info).2.connectivity.take cn.m_connection.length =
      cn.m_connection.map toXmaAXLFConnectivity := by
  have hmemtake : mt.m_mem_data.take mt.m_count = mt.m_mem_data := by
    rw [hmemc]; exact List.take_length _
  have hconntake : cn.m_connection.take cn.m_count = cn.m_connection := by
    rw [hconnc]; exact List.take_length _
  have hfil : (ipl.m_ip_data.take ipl.m_count).filter (fun d => d.m_type = IP_KERNEL)
      = ipl.m_ip_data := by
    rw [hipc, List.take_length]
    exact List.filter_eq_self.mpr (fun a ha => by simp [hipk a ha])
  obtain ⟨m1, m2, m3, m4, m5, m6, m7, m8, m9⟩ :=
    get_xclbin_mem_topology_ok xclbin mt info hmem hmemcap
  obtain ⟨c1, c2, c3, c4, c5, c6, c7, c8, c9⟩ :=
    get_xclbin_connectivity_spec xclbin cn
      (get_xclbin_mem_topology xclbin info).2 hconn
  obtain ⟨i1, i2, i3, i4, i5, i6, i7, i8, i9⟩ :=
    get_xclbin_iplayout_spec xclbin ipl
      (get_xclbin_connectivity xclbin (get_xclbin_mem_topology xclbin info).2).2 hip
  obtain ⟨g1, gip, gnk, gmem, gnb, gconn, gnc, _guuid⟩ :=
    info_get_components xclbin info (by rw [m1]; decide) (by rw [c1]; decide)
      (by rw [i1]; decide)
  have hn : (get_xclbin_iplayout xclbin
      (get_xclbin_connectivity xclbin (get_xclbin_mem_topology xclbin info).2).2).2.number_of_kernels
      = ipl.m_ip_data.length := by rw [i2, hfil]
  refine ⟨g1, ?_, ?_, ?_, ?_, ?_, ?_⟩
  · rw [gnk, hn]
  · rw [gip, ← hn, i3, hfil]
  · rw [gnb, i5, c7, m2, hmemc]
  · rw [gmem, i4, c6]
    rw [hmemtake] at m3
    exact m3
  · rw [gnc, i7, c2, hconnc]
  · rw [gconn, i6]
    rw [hconntake] at c3
    exact c3

/-- Witness for C8 at the concrete well-formed container `cxGood`. -/
theorem claim8_round_trip_witness :
    (xma_xclbin_info_get cxGood info0).1 = XMA_SUCCESS ∧
    (xma_xclbin_info_get cxGood info0).2.number_of_kernels = goodIpl.m_ip_data.length ∧
    (xma_xclbin_info_get cxGood info0).2.ip_layout.take goodIpl.m_ip_data.length =
      goodIpl.m_ip_data.map toXmaIpLayout ∧
    (xma_xclbin_info_get cxGood info0).2.number_of_mem_banks = goodMt.m_mem_data.length ∧
    (xma_xclbin_info_get cxGood info0).2.mem_topology.take goodMt.m_mem_data.length =
      goodMt.m_mem_data.map toXmaMemTopology ∧
    (xma_xclbin_info_get cxGood info0).2.number_of_connections = goodCn.m_connection.length ∧
    (xma_xclbin_info_get cxGood info0).2.connectivity.take goodCn.m_connection.length =
      goodCn.m_connection.map toXmaAXLFConnectivity :=
  claim8_round_trip cxGood goodIpl goodMt goodCn info0 rfl (by decide) (by decide)
    (by decide) rfl (by decide) (by decide) rfl (by decide)

namespace RunSummary

theorem hexCharVal_hexChar : ∀ n, n < 16 → hexCharVal (hexChar n) = n := by decide

theorem hexChar_mem_alphabet : ∀ n, n < 16 → hexChar n ∈ "0123456789abcdef".data := by
  decide

theorem from_hex_chars_flatten (bytes : List Nat) (h : ∀ b ∈ bytes, b < 256) :
    from_hex_chars (bytes.map byteToHexChars).flatten = some bytes := by
  induction bytes with
  | nil => rfl
  | cons b bs ih =>
    have hb : b < 256 := h b (List.mem_cons_self b bs)
    have h16 : b / 16 < 16 := by omega
    have h16m : b % 16 < 16 := by omega
    have hrest : ∀ x ∈ bs, x < 256 := fun x hx => h x (List.mem_cons_of_mem b hx)
    have hcv1 := hexCharVal_hexChar _ h16
    have hcv2 := hexCharVal_hexChar _ h16m
    have hdm : b / 16 * 16 + b % 16 = b := by omega
    simp [List.map_cons, List.flatten_cons, byteToHexChars, List.cons_append,
      List.nil_append, from_hex_chars, ih hrest, hcv1, hcv2, hdm]

theorem to_hex_flatten_length (bytes : List Nat) :
    ((bytes.map byteToHexChars).flatten).length = 2 * bytes.length := by
  induction bytes with
  | nil => rfl
  | cons b bs ih =>
    simp only [List.map_cons, List.flatten_cons, List.length_append, ih,
      byteToHexChars, List.length_cons, List.length_nil]
    omega

theorem mem_hex_alphabet (bytes : List Nat) (h : ∀ b ∈ bytes, b < 256) :
    ∀ c ∈ (bytes.map byteToHexChars).flatten, c ∈ "0123456789abcdef".data := by
  induction bytes with
  | nil => intro c hc; simp at hc
  | cons b bs ih =>
    intro c hc
    have hb : b < 256 := h b (List.mem_cons_self b bs)
    simp only [List.map_cons, List.flatten_cons, byteToHexChars, List.cons_append,
      List.nil_append, List.mem_cons] at hc
    rcases hc with h1 | h2 | h3
    · subst h1; exact hexChar_mem_alphabet _ (by omega)
    · subst h2; exact hexChar_mem_alphabet _ (by omega)
    · exact ih (fun x hx => h x (List.mem_cons_of_mem b hx)) c h3

/-- C7: the hex encoding produced by the metadata extraction loop is
deterministic (it is a function), lowercase hex-alphabet only, exactly two
digits per byte with no separators in input order (hence decoding it with
the inverse reproduces the bytes, and the encoding is injective), and the
empty byte sequence maps to the empty string. -/
theorem claim7_hex_encoding (bytes bytes2 : List Nat)
    (h : ∀ b ∈ bytes, b < 256) (h2 : ∀ b ∈ bytes2, b < 256) :
    from_hex (to_hex bytes) = some bytes ∧
    (to_hex bytes).length = 2 * bytes.length ∧
    (∀ c ∈ (to_hex bytes).data, c ∈ "0123456789abcdef".data) ∧
    (to_hex bytes = to_hex bytes2 → bytes = bytes2) ∧
    to_hex [] = "" := by
  refine ⟨?_, ?_, ?_, ?_, by decide⟩
  · simpa [from_hex, to_hex] using from_hex_chars_flatten bytes h
  · simpa [to_hex, String.length_mk] using to_hex_flatten_length bytes
  · intro c hc
    exact mem_hex_alphabet bytes h c (by simpa [to_hex] using hc)
  · intro he
    have e1 := from_hex_chars_flatten bytes h
    have e2 := from_hex_chars_flatten bytes2 h2
    have hd : (bytes.map byteToHexChars).flatten = (bytes2.map byteToHexChars).flatten := by
      have hdata := congrArg String.data he
      simpa [to_hex] using hdata
    rw [hd, e2] at e1
    exact (Option.some.inj e1).symm

/-- Witness for C7 at the concrete byte sequences [0, 255, 16] and [1]. -/
theorem claim7_hex_encoding_witness :
    from_hex (to_hex [0, 255, 16]) = some [0, 255, 16] ∧
    (to_hex [0, 255, 16]).length = 2 * ([0, 255, 16] : List Nat).length ∧
    (∀ c ∈ (to_hex [0, 255, 16]).data, c ∈ "0123456789abcdef".data) ∧
    (to_hex [0, 255, 16] = to_hex [1] → ([0, 255, 16] : List Nat) = [1]) ∧
    to_hex [] = "" :=
  claim7_hex_encoding [0, 255, 16] [1] (by decide) (by decide)

end RunSummary

theorem map2ddrLoop_lsb (bm : Nat) : ∀ (idx : Nat) (bank : Int), bm ≠ 0 →
    ∃ k, map2ddrLoop bm idx bank = (XMA_SUCCESS, Int.ofNat (idx + k)) ∧
      bm.testBit k = true ∧ ∀ j, j < k → bm.testBit j = false := by
  induction bm using Nat.strong_induction_on with
  | _ bm ih =>
    intro idx bank hbm
    unfold map2ddrLoop
    rw [dif_neg hbm]
    by_cases hodd : bm % 2 = 1
    · rw [if_pos hodd]
      refine ⟨0, by simp, ?_, ?_⟩
      · simp [Nat.testBit_zero, hodd]
      · intro j hj; exact absurd hj (Nat.not_lt_zero j)
    · rw [if_neg hodd]
      have hbm2 : bm / 2 ≠ 0 := by omega
      obtain ⟨k, hk1, hk2, hk3⟩ :=
        ih (bm / 2) (Nat.div_lt_self (Nat.pos_of_ne_zero hbm) one_lt_two)
          (idx + 1) bank hbm2
      have harith : idx + 1 + k = idx + (k + 1) := by omega
      refine ⟨k + 1, ?_, ?_, ?_⟩
      · rw [hk1, harith]
      · rw [Nat.testBit_add_one]; exact hk2
      · intro j hj
        cases j with
        | zero => simp [Nat.testBit_zero, hodd]
        | succ j2 => rw [Nat.testBit_add_one]; exact hk3 j2 (by omega)

/-- C9: a nonzero bitmap makes `xma_xclbin_map2ddr` return success and
write the index of the least-significant set bit into the output bank
argument; a zero bitmap makes it return the error code and leave the
output argument unchanged. -/
theorem claim9_map2ddr (bit_map : Nat) (ddr_bank : Int) :
    (bit_map = 0 → xma_xclbin_map2ddr bit_map ddr_bank = (XMA_ERROR, ddr_bank)) ∧
    (bit_map ≠ 0 → ∃ k,
      xma_xclbin_map2ddr bit_map ddr_bank = (XMA_SUCCESS, Int.ofNat k) ∧
      bit_map.testBit k = true ∧ ∀ j, j < k → bit_map.testBit j = false) := by
  constructor
  · intro h
    subst h
    unfold xma_xclbin_map2ddr
    unfold map2ddrLoop
    simp
  · intro h
    obtain ⟨k, hk1, hk2, hk3⟩ := map2ddrLoop_lsb bit_map 0 ddr_bank h
    exact ⟨k, by simpa [xma_xclbin_map2ddr] using hk1, hk2, hk3⟩

/-- Witness for C9 at the concrete bitmaps 0 and 40 (low set bit 3). -/
theorem claim9_map2ddr_witness :
    xma_xclbin_map2ddr 0 7 = (XMA_ERROR, 7) ∧
    (∃ k, xma_xclbin_map2ddr 40 7 = (XMA_SUCCESS, Int.ofNat k) ∧
      Nat.testBit 40 k = true ∧ ∀ j, j < k → Nat.testBit 40 j = false) :=
  ⟨(claim9_map2ddr 0 7).1 rfl, (claim9_map2ddr 40 7).2 (by decide)⟩

theorem boStep_preserves_max (s : BoCache.State) (op : BoCache.Op) :
    (BoCache.step s op).2.mCacheMaxSize = s.mCacheMaxSize := by
  cases op with
  | alloc =>
    by_cases hmax : s.mCacheMaxSize ≠ 0
    · match hl : s.mCmdBOCache.getLast? with
      | some bo =>
        simp [BoCache.step, BoCache.alloc_impl, if_pos hmax, hl]
      | none =>
        simp [BoCache.step, BoCache.alloc_impl, if_pos hmax, hl, BoCache.freshAlloc]
    · simp [BoCache.step, BoCache.alloc_impl, if_neg hmax, BoCache.freshAlloc]
  | release bo =>
    by_cases hc : s.mCacheMaxSize ≠ 0 ∧ s.mCmdBOCache.length < s.mCacheMaxSize
    · simp [BoCache.step, BoCache.release_impl, if_pos hc]
    · simp [BoCache.step, BoCache.release_impl, if_neg hc]

theorem boStep_len (s : BoCache.State) (op : BoCache.Op)
    (h : s.mCmdBOCache.length ≤ s.mCacheMaxSize) :
    (BoCache.step s op).2.mCmdBOCache.length ≤ s.mCacheMaxSize := by
  cases op with
  | alloc =>
    by_cases hmax : s.mCacheMaxSize ≠ 0
    · match hl : s.mCmdBOCache.getLast? with
      | some bo =>
        simp only [BoCache.step, BoCache.alloc_impl, if_pos hmax, hl]
        simp only [List.length_dropLast]
        omega
      | none =>
        simp only [BoCache.step, BoCache.alloc_impl, if_pos hmax, hl, BoCache.freshAlloc]
        exact h
    · simp only [BoCache.step, BoCache.alloc_impl, if_neg hmax, BoCache.freshAlloc]
      exact h
  | release bo =>
    by_cases hc : s.mCacheMaxSize ≠ 0 ∧ s.mCmdBOCache.length < s.mCacheMaxSize
    · simp only [BoCache.step, BoCache.release_impl, if_pos hc]
      simp only [List.length_append, List.length_cons, List.length_nil]
      omega
    · simp only [BoCache.step, BoCache.release_impl, if_neg hc]
      exact h

theorem boStep_zero (s : BoCache.State) (op : BoCache.Op)
    (h0 : s.mCacheMaxSize = 0) (he : s.mCmdBOCache = []) :
    (BoCache.step s op).2.mCmdBOCache = [] ∧
    (op = BoCache.Op.alloc →
      (BoCache.step s op).1 = BoCache.Event.fresh s.nextHandle) ∧
    (∀ bo, op = BoCache.Op.release bo →
      (BoCache.step s op).1 = BoCache.Event.destroyed bo) := by
  cases op with
  | alloc =>
    have hmax : ¬ (s.mCacheMaxSize ≠ 0) := by simp [h0]
    refine ⟨?_, ?_, ?_⟩
    · simp [BoCache.step, BoCache.alloc_impl, if_neg hmax, BoCache.freshAlloc, he]
    · intro _
      simp [BoCache.step, BoCache.alloc_impl, if_neg hmax, BoCache.freshAlloc]
    · intro bo hbo
      cases hbo
  | release bo =>
    have hc : ¬ (s.mCacheMaxSize ≠ 0 ∧ s.mCmdBOCache.length < s.mCacheMaxSize) := by
      simp [h0]
    refine ⟨?_, ?_, ?_⟩
    · simp [BoCache.step, BoCache.release_impl, h0, he]
    · intro hop
      cases hop
    · intro bo2 hbo
      cases hbo
      simp [BoCache.step, BoCache.release_impl, h0]

theorem boRun_inv (ops : List BoCache.Op) (s : BoCache.State)
    (h : s.mCmdBOCache.length ≤ s.mCacheMaxSize) :
    (BoCache.run s ops).2.mCacheMaxSize = s.mCacheMaxSize ∧
    (BoCache.run s ops).2.mCmdBOCache.length ≤ s.mCacheMaxSize := by
  induction ops generalizing s with
  | nil => exact ⟨rfl, h⟩
  | cons op rest ih =>
    have hmax := boStep_preserves_max s op
    have hlen := boStep_len s op h
    obtain ⟨a1, a2⟩ := ih (BoCache.step s op).2 (by rw [hmax]; exact hlen)
    rw [hmax] at a1 a2
    exact ⟨a1, a2⟩

theorem boRun_zero (ops : List BoCache.Op) (s : BoCache.State)
    (h0 : s.mCacheMaxSize = 0) (he : s.mCmdBOCache = []) :
    (BoCache.run s ops).2.mCmdBOCache = [] ∧
    List.Forall₂ (fun (op : BoCache.Op) (e : BoCache.Event) =>
        match op with
        | BoCache.Op.alloc => ∃ b, e = BoCache.Event.fresh b
        | BoCache.Op.release bo => e = BoCache.Event.destroyed bo)
      ops (BoCache.run s ops).1 := by
  induction ops generalizing s with
  | nil => exact ⟨he, List.Forall₂.nil⟩
  | cons op rest ih =>
    obtain ⟨z1, z2, z3⟩ := boStep_zero s op h0 he
    have h0s : (BoCache.step s op).2.mCacheMaxSize = 0 := by
      rw [boStep_preserves_max]; exact h0
    obtain ⟨r1, r2⟩ := ih (BoCache.step s op).2 h0s z1
    refine ⟨r1, List.Forall₂.cons ?_ r2⟩
    cases op with
    | alloc => exact ⟨s.nextHandle, z2 rfl⟩
    | release bo => exact z3 bo rfl

/-- C10: under every sequence of alloc and release operations starting
from a freshly constructed cache, the pool never holds more than the
configured maximum number of buffer objects; with maximum 0 the pool stays
empty, every alloc allocates a fresh buffer object and every release
destroys the released buffer object. -/
theorem claim10_bo_cache_invariant (max_size : Nat) (ops : List BoCache.Op) :
    (BoCache.run (BoCache.init max_size) ops).2.mCmdBOCache.length ≤ max_size ∧
    (max_size = 0 →
      (BoCache.run (BoCache.init max_size) ops).2.mCmdBOCache = [] ∧
      List.Forall₂ (fun (op : BoCache.Op) (e : BoCache.Event) =>
          match op with
          | BoCache.Op.alloc => ∃ b, e = BoCache.Event.fresh b
          | BoCache.Op.release bo => e = BoCache.Event.destroyed bo)
        ops (BoCache.run (BoCache.init max_size) ops).1) := by
  constructor
  · exact (boRun_inv ops (BoCache.init max_size) (by simp [BoCache.init])).2
  · intro h0
    exact boRun_zero ops (BoCache.init max_size) h0 rfl

/-- Witness for C10 with a disabled cache (maximum 0) running an alloc
followed by a release. -/
theorem claim10_bo_cache_invariant_witness :
    (BoCache.run (BoCache.init 0) [BoCache.Op.alloc, BoCache.Op.release 5]).2.mCmdBOCache.length ≤ 0 ∧
    (BoCache.run (BoCache.init 0) [BoCache.Op.alloc, BoCache.Op.release 5]).2.mCmdBOCache = [] :=
  ⟨(claim10_bo_cache_invariant 0 [BoCache.Op.alloc, BoCache.Op.release 5]).1,
   ((claim10_bo_cache_invariant 0 [BoCache.Op.alloc, BoCache.Op.release 5]).2 rfl).1⟩
